import Mathlib

/-!
MAX2870 PLL loader for PIC12F1501 (`pllset.c`).

A shallow embedding of the bit-banged serial loader.  The microcontroller is a
record of the special function registers the program touches, together with the
log of every observable action (a pin write through one of the `SPI_*` macros, a
busy-wait delay, or a whole-register write made by `port_init`).  Every C function
is a state transformer `Mcu → Mcu`; `main`, which never returns, is a step function
on program points.
-/

namespace Pllset

/-- The four logic signals; each is one bit of the `LATA` output latch. -/
inductive Signal
  | DAT
  | CLK
  | LE
  | CS
  deriving DecidableEq, Repr

/-- Special function registers written by `port_init`. -/
inductive Sfr
  | OSCCON
  | TRISA
  | OPTION_REG
  | WPUA
  | INTCON
  | LATA
  | ANSELA
  deriving DecidableEq, Repr

/-- Observable actions, in program order. -/
inductive Event
  | write (sig : Signal) (high : Bool)
  | delay_us (n : Nat)
  | delay_ms (n : Nat)
  | sfr (r : Sfr) (v : Nat)
  deriving DecidableEq, Repr

/-- Machine state: the registers of the PIC that the program writes, and the log. -/
structure Mcu where
  OSCCON : Nat
  TRISA : Nat
  OPTION_REG : Nat
  WPUA : Nat
  INTCON : Nat
  LATA : Nat
  ANSELA : Nat
  log : List Event
  deriving DecidableEq, Repr

/-- Bit position of each signal in `LATA` (`LATA0`, `LATA1`, `LATA2`, `LATA4`). -/
def latBit : Signal → Nat
  | Signal.DAT => 0
  | Signal.CLK => 1
  | Signal.LE => 2
  | Signal.CS => 4

/-- Single-bit write to a register: `LATAk = 1` sets bit `k`, `LATAk = 0` clears it. -/
def writeBit (r k : Nat) (v : Bool) : Nat :=
  if v then r ||| 2 ^ k else r ^^^ (r &&& 2 ^ k)

/-- The statement `LATAk = v` for the latch bit of `sig`. -/
def setLat (sig : Signal) (v : Bool) (s : Mcu) : Mcu :=
  { s with LATA := writeBit s.LATA (latBit sig) v, log := s.log ++ [Event.write sig v] }

def SPI_DAT_LOW : Mcu → Mcu := setLat Signal.DAT false
def SPI_DAT_HIGH : Mcu → Mcu := setLat Signal.DAT true
def SPI_CLK_LOW : Mcu → Mcu := setLat Signal.CLK false
def SPI_CLK_HIGH : Mcu → Mcu := setLat Signal.CLK true
def SPI_LE_LOW : Mcu → Mcu := setLat Signal.LE false
def SPI_LE_HIGH : Mcu → Mcu := setLat Signal.LE true
def SPI_CS_LOW : Mcu → Mcu := setLat Signal.CS false
def SPI_CS_HIGH : Mcu → Mcu := setLat Signal.CS true

/-- The busy-wait `__delay_us(n)`. -/
def delay_us (n : Nat) (s : Mcu) : Mcu :=
  { s with log := s.log ++ [Event.delay_us n] }

/-- The busy-wait `__delay_ms(n)`. -/
def delay_ms (n : Nat) (s : Mcu) : Mcu :=
  { s with log := s.log ++ [Event.delay_ms n] }

-- 700M for TEST
def REG0 : Nat := 0x80700000
def REG1 : Nat := 0x200303E9
def REG2 : Nat := 0x00010042
def REG3 : Nat := 0x00000133
def REG4 : Nat := 0x61BF42FC
def REG5 : Nat := 0x01400005

-- 1150M + 145M = 1295M
def REG0_1G2 : Nat := 0x005C0000
def REG1_1G2 : Nat := 0x200303E9
def REG2_1G2 : Nat := 0x00010A42
def REG3_1G2 : Nat := 0x00000133
def REG4_1G2 : Nat := 0x61AF42FC
def REG5_1G2 : Nat := 0x01400005

-- 1995M + 432M = 2427M
def REG0_2G4 : Nat := 0x004F8258
def REG1_2G4 : Nat := 0x200303E9
def REG2_2G4 : Nat := 0x00010C42
def REG3_2G4 : Nat := 0x00000133
def REG4_2G4 : Nat := 0x619F42FC
def REG5_2G4 : Nat := 0x01400005

-- 5328M + 432M = 5760M
def REG0_5G6 : Nat := 0x006A8078
def REG1_5G6 : Nat := 0x200303E9
def REG2_5G6 : Nat := 0x00010E42
def REG3_5G6 : Nat := 0x00000133
def REG4_5G6 : Nat := 0x618F42FC
def REG5_5G6 : Nat := 0x01400005

/-- The function `port_init`: seven whole-register writes, in source order. -/
def port_init (s : Mcu) : Mcu :=
  { s with
    OSCCON := 0b01101000
    TRISA := 0b00101000
    OPTION_REG := 0b00000000
    WPUA := 0b00101000
    INTCON := 0b00000000
    LATA := 0b00000111
    ANSELA := 0b00000000
    log := s.log ++
      [Event.sfr Sfr.OSCCON 0b01101000, Event.sfr Sfr.TRISA 0b00101000,
       Event.sfr Sfr.OPTION_REG 0b00000000, Event.sfr Sfr.WPUA 0b00101000,
       Event.sfr Sfr.INTCON 0b00000000, Event.sfr Sfr.LATA 0b00000111,
       Event.sfr Sfr.ANSELA 0b00000000] }

/-- One pass of the body of the `for` loop of `spi_byte`, acting on the local
`data` and on the machine. -/
def spi_byte_body (data : Nat) (s : Mcu) : Nat × Mcu :=
  let s := if data &&& 0x80 = 0 then SPI_DAT_LOW s else SPI_DAT_HIGH s
  let data := (data <<< 1) % 256
  let s := delay_us 2 s
  let s := SPI_CLK_HIGH s
  let s := delay_us 4 s
  let s := SPI_CLK_LOW s
  let s := delay_us 2 s
  (data, s)

/-- The loop `for (i = 0; i < 8; i++)` of `spi_byte`, with `n = 8 - i` passes left. -/
def spi_byte_loop : Nat → Nat → Mcu → Mcu
  | 0, _, s => s
  | n + 1, data, s => spi_byte_loop n (spi_byte_body data s).1 (spi_byte_body data s).2

/-- The function `spi_byte`; the argument is converted to `uint8_t` on entry. -/
def spi_byte (data : Nat) (s : Mcu) : Mcu :=
  spi_byte_loop 8 (data % 256) s

/-- The function `spi_snd`; the argument is converted to `uint32_t` on entry. -/
def spi_snd (reg : Nat) (s : Mcu) : Mcu :=
  let reg := reg % 2 ^ 32
  let data := ((reg >>> 24) &&& 0xFF) % 256
  let s := spi_byte data s
  let data := ((reg >>> 16) &&& 0xFF) % 256
  let s := spi_byte data s
  let data := ((reg >>> 8) &&& 0xFF) % 256
  let s := spi_byte data s
  let data := (reg &&& 0xFF) % 256
  let s := spi_byte data s
  let s := delay_us 2 s
  let s := SPI_LE_HIGH s
  let s := delay_us 10 s
  let s := SPI_LE_LOW s
  delay_us 2 s

/-- The function `spi_open`. -/
def spi_open (s : Mcu) : Mcu :=
  let s := SPI_CS_HIGH s
  let s := delay_us 2 s
  let s := SPI_LE_HIGH s
  let s := delay_us 10 s
  let s := SPI_DAT_LOW s
  let s := delay_us 2 s
  let s := SPI_CLK_LOW s
  let s := delay_us 2 s
  let s := SPI_CS_LOW s
  let s := delay_us 10 s
  let s := SPI_LE_LOW s
  delay_us 2 s

/-- The function `spi_close`. -/
def spi_close (s : Mcu) : Mcu :=
  let s := SPI_CLK_LOW s
  let s := delay_us 2 s
  let s := SPI_DAT_LOW s
  let s := delay_us 10 s
  let s := SPI_CS_HIGH s
  delay_us 10 s

/-- The function `pll_700`. -/
def pll_700 (s : Mcu) : Mcu :=
  let s := spi_open s
  let s := spi_snd REG5 s
  let s := delay_ms 20 s
  let s := spi_snd REG4 s
  let s := spi_snd REG3 s
  let s := spi_snd REG2 s
  let s := spi_snd REG1 s
  let s := spi_snd REG0 s
  let s := spi_close s
  delay_ms 10 s

/-- The function `pll_1G2`. -/
def pll_1G2 (s : Mcu) : Mcu :=
  let s := spi_open s
  let s := spi_snd REG5_1G2 s
  let s := delay_ms 20 s
  let s := spi_snd REG4_1G2 s
  let s := spi_snd REG3_1G2 s
  let s := spi_snd REG2_1G2 s
  let s := spi_snd REG1_1G2 s
  let s := spi_snd REG0_1G2 s
  let s := spi_close s
  delay_ms 10 s

/-- The function `pll_2G4`. -/
def pll_2G4 (s : Mcu) : Mcu :=
  let s := spi_open s
  let s := spi_snd REG5_2G4 s
  let s := delay_ms 20 s
  let s := spi_snd REG4_2G4 s
  let s := spi_snd REG3_2G4 s
  let s := spi_snd REG2_2G4 s
  let s := spi_snd REG1_2G4 s
  let s := spi_snd REG0_2G4 s
  let s := spi_close s
  delay_ms 10 s

/-- The function `pll_5G6`. -/
def pll_5G6 (s : Mcu) : Mcu :=
  let s := spi_open s
  let s := spi_snd REG5_5G6 s
  let s := delay_ms 20 s
  let s := spi_snd REG4_5G6 s
  let s := spi_snd REG3_5G6 s
  let s := spi_snd REG2_5G6 s
  let s := spi_snd REG1_5G6 s
  let s := spi_snd REG0_5G6 s
  let s := spi_close s
  delay_ms 10 s

/-- Program points of `main`: one per statement, plus the point after the closing
brace of the function, which is where control would be had the loop an exit. -/
inductive Pc
  | init
  | wait_powerup
  | apply_700
  | dwell_700
  | apply_1G2
  | dwell_1G2
  | apply_2G4
  | dwell_2G4
  | apply_5G6
  | dwell_5G6
  | returned
  deriving DecidableEq, Repr

/-- One statement of `main`: the statement at the program point is executed and
control moves to the next one; after the last statement of the `while(1)` body
control goes back to its first statement. -/
def main_step : Pc × Mcu → Pc × Mcu
  | (Pc.init, s) => (Pc.wait_powerup, port_init s)
  | (Pc.wait_powerup, s) => (Pc.apply_700, delay_ms 1000 s)
  | (Pc.apply_700, s) => (Pc.dwell_700, pll_700 s)
  | (Pc.dwell_700, s) => (Pc.apply_1G2, delay_ms 10000 s)
  | (Pc.apply_1G2, s) => (Pc.dwell_1G2, pll_1G2 s)
  | (Pc.dwell_1G2, s) => (Pc.apply_2G4, delay_ms 10000 s)
  | (Pc.apply_2G4, s) => (Pc.dwell_2G4, pll_2G4 s)
  | (Pc.dwell_2G4, s) => (Pc.apply_5G6, delay_ms 10000 s)
  | (Pc.apply_5G6, s) => (Pc.dwell_5G6, pll_5G6 s)
  | (Pc.dwell_5G6, s) => (Pc.apply_1G2, delay_ms 10000 s)
  | (Pc.returned, s) => (Pc.returned, s)

/-- The function `main` run for `n` statements from its entry. -/
def main (n : Nat) (s : Mcu) : Pc × Mcu :=
  main_step^[n] (Pc.init, s)

/-! ## Observers on states and traces -/

/-- Level of a signal in a machine state: its bit of `LATA`. -/
def level (sig : Signal) (s : Mcu) : Bool :=
  s.LATA.testBit (latBit sig)

/-- The events a state transformer appends to the log when run from `s`. -/
def emitted (f : Mcu → Mcu) (s : Mcu) : List Event :=
  (f s).log.drop s.log.length

/-- Effect of one event on the level of `sig`. -/
def evLevel (sig : Signal) (b : Bool) : Event → Bool
  | Event.write sig' v => if sig' = sig then v else b
  | Event.sfr Sfr.LATA v => v.testBit (latBit sig)
  | _ => b

/-- Level of `sig` after a trace, given its level before. -/
def levelAfter (sig : Signal) (b : Bool) (tr : List Event) : Bool :=
  tr.foldl (evLevel sig) b

/-- The state transformer `f` appends exactly `T` to the log, from every state, and
moves every signal to the level that replaying `T` gives. -/
def Emits (f : Mcu → Mcu) (T : List Event) : Prop :=
  ∀ s, (f s).log = s.log ++ T ∧ ∀ sig, level sig (f s) = levelAfter sig (level sig s) T

/-- One bit-cycle of the byte transmitter, as the contract words it. -/
def bitCycle (b : Bool) : List Event :=
  [Event.write Signal.DAT b, Event.delay_us 2, Event.write Signal.CLK true,
   Event.delay_us 4, Event.write Signal.CLK false, Event.delay_us 2]

/-- Eight bit-cycles carrying bits 7 down to 0 of `v`. -/
def byteTrace (v : Nat) : List Event :=
  (List.range 8).flatMap fun i => bitCycle (v.testBit (7 - i))

/-- The latch pulse that ends a register write. -/
def latchPulse : List Event :=
  [Event.delay_us 2, Event.write Signal.LE true, Event.delay_us 10,
   Event.write Signal.LE false, Event.delay_us 2]

/-- Register write as the contract words it: the bytes at offsets 24, 16, 8 and 0,
each got by shifting and masking, then the latch pulse. -/
def sndTrace (w : Nat) : List Event :=
  byteTrace ((w >>> 24) &&& 0xFF) ++ byteTrace ((w >>> 16) &&& 0xFF) ++
    byteTrace ((w >>> 8) &&& 0xFF) ++ byteTrace (w &&& 0xFF) ++ latchPulse

/-- Opening bracket of a transaction, as the contract words it. -/
def openTrace : List Event :=
  [Event.write Signal.CS true, Event.delay_us 2, Event.write Signal.LE true, Event.delay_us 10,
   Event.write Signal.DAT false, Event.delay_us 2, Event.write Signal.CLK false, Event.delay_us 2,
   Event.write Signal.CS false, Event.delay_us 10, Event.write Signal.LE false, Event.delay_us 2]

/-- Closing bracket of a transaction, as the contract words it. -/
def closeTrace : List Event :=
  [Event.write Signal.CLK false, Event.delay_us 2, Event.write Signal.DAT false,
   Event.delay_us 10, Event.write Signal.CS true, Event.delay_us 10]

/-- Trace of a profile with the six given words, as the sequencer contract words it. -/
def profileTrace (r5 r4 r3 r2 r1 r0 : Nat) : List Event :=
  openTrace ++ sndTrace r5 ++ [Event.delay_ms 20] ++ sndTrace r4 ++ sndTrace r3 ++
    sndTrace r2 ++ sndTrace r1 ++ sndTrace r0 ++ closeTrace ++ [Event.delay_ms 10]

/-- A write of HIGH to CLOCK. -/
def isClkRaise : Event → Bool
  | Event.write Signal.CLK true => true
  | _ => false

/-- A write to CLOCK or to LATCH_ENABLE. -/
def isClkOrLe : Event → Bool
  | Event.write Signal.CLK _ => true
  | Event.write Signal.LE _ => true
  | _ => false

/-- A write to DATA. -/
def isDatWrite : Event → Bool
  | Event.write Signal.DAT _ => true
  | _ => false

/-- A millisecond delay. -/
def isDelayMs : Event → Bool
  | Event.delay_ms _ => true
  | _ => false

/-- The DATA levels in force at the successive CLOCK raises of a trace, `d` being
the DATA level before the trace: what the chip shifts in. -/
def sampled : Bool → List Event → List Bool
  | _, [] => []
  | d, e :: t => (if isClkRaise e then [d] else []) ++ sampled (evLevel Signal.DAT d e) t

/-- Value of a list of bits read most significant first. -/
def ofBitsMSB (bits : List Bool) : Nat :=
  bits.foldl (fun acc b => 2 * acc + b.toNat) 0

/-- No write to DATA is made while CLOCK is HIGH, `c` being the CLOCK level before
the trace. -/
def datStable : Bool → List Event → Bool
  | _, [] => true
  | c, e :: t => !(isDatWrite e && c) && datStable (evLevel Signal.CLK c e) t

/-- Bytes carried by a list of bits: successive groups of eight, each read most
significant bit first (bits left over at the end are dropped). -/
def toBytes : List Bool → List Nat
  | b7 :: b6 :: b5 :: b4 :: b3 :: b2 :: b1 :: b0 :: t =>
    ofBitsMSB [b7, b6, b5, b4, b3, b2, b1, b0] :: toBytes t
  | _ => []

/-- Words carried by a list of bytes: successive groups of four, most significant
byte first. -/
def toWords : List Nat → List Nat
  | b3 :: b2 :: b1 :: b0 :: t => (b3 * 2 ^ 24 + b2 * 2 ^ 16 + b1 * 2 ^ 8 + b0) :: toWords t
  | _ => []

/-- The 32-bit words a trace shifts out, `d` being the DATA level before the trace. -/
def sentWords (d : Bool) (tr : List Event) : List Nat :=
  toWords (toBytes (sampled d tr))

/-- Program points inside the `while(1)` loop of `main`. -/
def inLoop : Pc → Bool
  | Pc.apply_1G2 => true
  | Pc.dwell_1G2 => true
  | Pc.apply_2G4 => true
  | Pc.dwell_2G4 => true
  | Pc.apply_5G6 => true
  | Pc.dwell_5G6 => true
  | _ => false

/-- The profile function `f` emits, from every state: the trace of `spi_open`, of
`spi_snd r5`, a 20 ms delay, the traces of `spi_snd r4` … `spi_snd r0`, of `spi_close`,
and a 10 ms delay; and its only millisecond delays are those two. -/
def ProfileShape (f : Mcu → Mcu) (r5 r4 r3 r2 r1 r0 : Nat) : Prop :=
  ∀ s t : Mcu,
    emitted f s =
        emitted spi_open t ++ emitted (spi_snd r5) t ++ [Event.delay_ms 20] ++
          emitted (spi_snd r4) t ++ emitted (spi_snd r3) t ++ emitted (spi_snd r2) t ++
          emitted (spi_snd r1) t ++ emitted (spi_snd r0) t ++ emitted spi_close t ++
          [Event.delay_ms 10] ∧
      (emitted f s).filter isDelayMs = [Event.delay_ms 20, Event.delay_ms 10]

/-- The words shifted out by the profile function `f` are `r5, r4, r3, r2, r1, r0` in
this order, and their low three bits are `5, 4, 3, 2, 1, 0`. -/
def DescendingAddresses (f : Mcu → Mcu) (r5 r4 r3 r2 r1 r0 : Nat) : Prop :=
  ∀ s : Mcu,
    sentWords (level Signal.DAT s) (emitted f s) = [r5, r4, r3, r2, r1, r0] ∧
      (sentWords (level Signal.DAT s) (emitted f s)).map (fun w => w % 8) = [5, 4, 3, 2, 1, 0]

/-- A write to the signal `sig`. -/
def isWriteTo (sig : Signal) : Event → Bool
  | Event.write sig' _ => decide (sig' = sig)
  | _ => false

/-- The levels (CHIP_SELECT, LATCH_ENABLE) in force at the successive LOW-to-HIGH
writes of CLOCK in a trace; `c`, `cs`, `le` are the levels of CLOCK, CHIP_SELECT and
LATCH_ENABLE before the trace. -/
def risingEdges : Bool → Bool → Bool → List Event → List (Bool × Bool)
  | _, _, _, [] => []
  | c, cs, le, e :: t =>
    (if isClkRaise e && !c then [(cs, le)] else []) ++
      risingEdges (evLevel Signal.CLK c e) (evLevel Signal.CS cs e) (evLevel Signal.LE le e) t

/-- A write of HIGH to LATCH_ENABLE. -/
def isLeRaise : Event → Bool
  | Event.write Signal.LE true => true
  | _ => false

/-- For each LOW-to-HIGH transition of LATCH_ENABLE in a trace, the number of
LOW-to-HIGH transitions of CLOCK since the previous transition of LATCH_ENABLE (in
either direction) or, for the first, since the start; `c` and `le` are the levels of
CLOCK and LATCH_ENABLE before the trace, `n` the count so far. -/
def leRises : Bool → Bool → Nat → List Event → List Nat
  | _, _, _, [] => []
  | c, le, n, e :: t =>
    (if isLeRaise e && !le then [n] else []) ++
      leRises (evLevel Signal.CLK c e) (evLevel Signal.LE le e)
        (if isWriteTo Signal.LE e && (evLevel Signal.LE le e != le) then 0
          else if isClkRaise e && !c then n + 1 else n) t

/-- The running count kept by `leRises`, after a trace. -/
def clkCount : Bool → Bool → Nat → List Event → Nat
  | _, _, n, [] => n
  | c, le, n, e :: t =>
    clkCount (evLevel Signal.CLK c e) (evLevel Signal.LE le e)
      (if isWriteTo Signal.LE e && (evLevel Signal.LE le e != le) then 0
        else if isClkRaise e && !c then n + 1 else n) t

/-- The state a transaction leaves behind: DATA, CLOCK and LATCH_ENABLE low,
CHIP_SELECT high. -/
def idle (s : Mcu) : Bool :=
  !level Signal.DAT s && !level Signal.CLK s && !level Signal.LE s && level Signal.CS s

/-- Number of times `pll_700` is applied during the first `n` statements of `main`:
the steps taken from the program point of its call. -/
def applied700 (n : Nat) (s : Mcu) : Nat :=
  ((List.range n).filter fun k => decide ((main k s).1 = Pc.apply_700)).length

/-- Program points of `main` that follow the call of `pll_700`. -/
def past700 : Pc → Bool
  | Pc.init => false
  | Pc.wait_powerup => false
  | Pc.apply_700 => false
  | Pc.returned => false
  | _ => true

/-- A concrete machine state: every register zero, nothing logged. -/
def zeroState : Mcu :=
  { OSCCON := 0, TRISA := 0, OPTION_REG := 0, WPUA := 0, INTCON := 0, LATA := 0, ANSELA := 0,
    log := [] }

/-- A concrete machine state with all four signal latches HIGH and a non-empty log. -/
def busyState : Mcu :=
  { OSCCON := 0x68, TRISA := 0x28, OPTION_REG := 0, WPUA := 0x28, INTCON := 0, LATA := 0x17,
    ANSELA := 0, log := [Event.delay_ms 1000] }

/-! ## Basic facts -/

theorem testBit_writeBit (r k j : Nat) (v : Bool) :
    (writeBit r k v).testBit j = if k = j then v else r.testBit j := by
  unfold writeBit
  cases v <;> by_cases h : k = j <;>
    simp [Nat.testBit_or, Nat.testBit_xor, Nat.testBit_and, Nat.testBit_two_pow, h]

theorem latBit_inj (a b : Signal) : latBit a = latBit b ↔ a = b := by
  cases a <;> cases b <;> simp [latBit]

theorem level_setLat (sig sig' : Signal) (v : Bool) (s : Mcu) :
    level sig (setLat sig' v s) = if sig' = sig then v else level sig s := by
  simp [level, setLat, testBit_writeBit, latBit_inj]

theorem levelAfter_append (sig : Signal) (b : Bool) (T U : List Event) :
    levelAfter sig b (T ++ U) = levelAfter sig (levelAfter sig b T) U := by
  simp [levelAfter, List.foldl_append]

theorem emits_setLat (sig : Signal) (v : Bool) : Emits (setLat sig v) [Event.write sig v] := by
  intro s
  refine ⟨rfl, fun sig' => ?_⟩
  simp [level_setLat, levelAfter, evLevel]

theorem emits_delay_us (n : Nat) : Emits (delay_us n) [Event.delay_us n] := by
  intro s
  exact ⟨rfl, fun sig' => rfl⟩

theorem emits_delay_ms (n : Nat) : Emits (delay_ms n) [Event.delay_ms n] := by
  intro s
  exact ⟨rfl, fun sig' => rfl⟩

theorem emits_id : Emits (fun s => s) [] := by
  intro s
  exact ⟨by simp, fun sig' => rfl⟩

theorem emits_comp {f g : Mcu → Mcu} {T U : List Event} (hf : Emits f T) (hg : Emits g U) :
    Emits (fun s => g (f s)) (T ++ U) := by
  intro s
  refine ⟨?_, fun sig => ?_⟩
  · rw [(hg (f s)).1, (hf s).1, List.append_assoc]
  · rw [(hg (f s)).2, (hf s).2, levelAfter_append]

theorem emitted_eq {f : Mcu → Mcu} {T : List Event} (h : Emits f T) (s : Mcu) :
    emitted f s = T := by
  unfold emitted
  rw [(h s).1, List.drop_left]

theorem testBit7 (data : Nat) : (data &&& 0x80 = 0) ↔ data.testBit 7 = false := by
  have h : data &&& 0x80 = (data.testBit 7).toNat * 2 ^ 7 := Nat.and_two_pow data 7
  rw [h]
  cases data.testBit 7 <;> simp

theorem emits_spi_byte_body (data : Nat) :
    Emits (fun s => (spi_byte_body data s).2) (bitCycle (data.testBit 7)) := by
  have hd : Emits (fun s => if data &&& 0x80 = 0 then SPI_DAT_LOW s else SPI_DAT_HIGH s)
      [Event.write Signal.DAT (data.testBit 7)] := by
    by_cases h : data &&& 0x80 = 0
    · have h7 := (testBit7 data).1 h
      simp only [h, if_true, h7]
      exact emits_setLat Signal.DAT false
    · have h7 : data.testBit 7 = true := by
        cases hb : data.testBit 7
        · exact absurd ((testBit7 data).2 hb) h
        · rfl
      simp only [h, if_false, h7]
      exact emits_setLat Signal.DAT true
  exact emits_comp (emits_comp (emits_comp (emits_comp (emits_comp hd (emits_delay_us 2))
    (emits_setLat Signal.CLK true)) (emits_delay_us 4)) (emits_setLat Signal.CLK false))
    (emits_delay_us 2)

theorem spi_byte_body_fst (data : Nat) (s : Mcu) :
    (spi_byte_body data s).1 = (data <<< 1) % 256 := rfl

theorem emits_spi_byte_loop (n : Nat) : ∀ data : Nat, n ≤ 8 →
    Emits (spi_byte_loop n data)
      ((List.range n).flatMap fun i => bitCycle (data.testBit (7 - i))) := by
  induction n with
  | zero => intro data _; exact emits_id
  | succ n ih =>
    intro data hn
    have h1 := emits_spi_byte_body data
    have h2 := ih ((data <<< 1) % 256) (by omega)
    have h3 := emits_comp h1 h2
    have e : (List.range (n + 1)).flatMap (fun i => bitCycle (data.testBit (7 - i)))
        = bitCycle (data.testBit 7) ++
          (List.range n).flatMap fun i => bitCycle (((data <<< 1) % 256).testBit (7 - i)) := by
      rw [List.range_succ_eq_map, List.flatMap_cons, List.flatMap_map]
      congr 1
      apply List.flatMap_congr
      intro i hi
      have hi' : i < n := List.mem_range.1 hi
      have e256 : (256 : Nat) = 2 ^ 8 := by norm_num
      rw [e256, Nat.testBit_mod_two_pow, Nat.testBit_shiftLeft]
      have a1 : 7 - i < 8 := by omega
      have a2 : 7 - i ≥ 1 := by omega
      have a3 : 7 - i - 1 = 7 - i.succ := by omega
      simp [a1, a2, a3]
    rw [e]
    intro s
    exact h3 s

theorem emits_spi_byte (v : Nat) : Emits (spi_byte v) (byteTrace v) := by
  have h := emits_spi_byte_loop 8 (v % 256) (le_refl 8)
  have e : ((List.range 8).flatMap fun i => bitCycle ((v % 256).testBit (7 - i))) = byteTrace v := by
    unfold byteTrace
    apply List.flatMap_congr
    intro i hi
    have e256 : (256 : Nat) = 2 ^ 8 := by norm_num
    rw [e256, Nat.testBit_mod_two_pow]
    have a1 : 7 - i < 8 := by omega
    simp [a1]
  rw [e] at h
  exact h

theorem byteTrace_congr (a b : Nat) (h : ∀ j, j < 8 → a.testBit j = b.testBit j) :
    byteTrace a = byteTrace b := by
  unfold byteTrace
  apply List.flatMap_congr
  intro i _
  rw [h (7 - i) (by omega)]

theorem and_0xFF (x : Nat) : x &&& 0xFF = x % 2 ^ 8 := Nat.and_pow_two_sub_one_eq_mod x 8

/-- Bits of the byte that `spi_snd` extracts at offset `k`. -/
theorem testBit_srcByte (w k j : Nat) (hj : j < 8) (hk : k + j < 32) :
    ((((w % 2 ^ 32) >>> k) &&& 0xFF) % 256).testBit j = (((w >>> k) &&& 0xFF)).testBit j := by
  have e256 : (256 : Nat) = 2 ^ 8 := by norm_num
  rw [e256, and_0xFF, and_0xFF, Nat.testBit_mod_two_pow, Nat.testBit_mod_two_pow,
    Nat.testBit_mod_two_pow, Nat.testBit_shiftRight, Nat.testBit_shiftRight,
    Nat.testBit_mod_two_pow]
  simp [hj, hk]

theorem emits_latch :
    Emits (fun s => delay_us 2 (SPI_LE_LOW (delay_us 10 (SPI_LE_HIGH (delay_us 2 s)))))
      latchPulse :=
  emits_comp (emits_comp (emits_comp (emits_comp (emits_delay_us 2)
    (emits_setLat Signal.LE true)) (emits_delay_us 10)) (emits_setLat Signal.LE false))
    (emits_delay_us 2)

theorem emits_spi_snd (w : Nat) : Emits (spi_snd w) (sndTrace w) := by
  have b3 : byteTrace ((((w % 2 ^ 32) >>> 24) &&& 0xFF) % 256) = byteTrace ((w >>> 24) &&& 0xFF) :=
    byteTrace_congr _ _ fun j hj => testBit_srcByte w 24 j hj (by omega)
  have b2 : byteTrace ((((w % 2 ^ 32) >>> 16) &&& 0xFF) % 256) = byteTrace ((w >>> 16) &&& 0xFF) :=
    byteTrace_congr _ _ fun j hj => testBit_srcByte w 16 j hj (by omega)
  have b1 : byteTrace ((((w % 2 ^ 32) >>> 8) &&& 0xFF) % 256) = byteTrace ((w >>> 8) &&& 0xFF) :=
    byteTrace_congr _ _ fun j hj => testBit_srcByte w 8 j hj (by omega)
  have b0 : byteTrace (((w % 2 ^ 32) &&& 0xFF) % 256) = byteTrace (w &&& 0xFF) :=
    byteTrace_congr _ _ fun j hj => by
      have h := testBit_srcByte w 0 j hj (by omega)
      simpa using h
  have h := emits_comp (emits_comp (emits_comp (emits_comp
    (emits_spi_byte ((((w % 2 ^ 32) >>> 24) &&& 0xFF) % 256))
    (emits_spi_byte ((((w % 2 ^ 32) >>> 16) &&& 0xFF) % 256)))
    (emits_spi_byte ((((w % 2 ^ 32) >>> 8) &&& 0xFF) % 256)))
    (emits_spi_byte (((w % 2 ^ 32) &&& 0xFF) % 256))) emits_latch
  rw [b3, b2, b1, b0] at h
  intro s
  exact h s

theorem emits_spi_open : Emits spi_open openTrace := by
  have h := emits_comp (emits_comp (emits_comp (emits_comp (emits_comp (emits_comp (emits_comp
    (emits_comp (emits_comp (emits_comp (emits_comp
    (emits_setLat Signal.CS true) (emits_delay_us 2)) (emits_setLat Signal.LE true))
    (emits_delay_us 10)) (emits_setLat Signal.DAT false)) (emits_delay_us 2))
    (emits_setLat Signal.CLK false)) (emits_delay_us 2)) (emits_setLat Signal.CS false))
    (emits_delay_us 10)) (emits_setLat Signal.LE false)) (emits_delay_us 2)
  intro s
  exact h s

theorem emits_spi_close : Emits spi_close closeTrace := by
  have h := emits_comp (emits_comp (emits_comp (emits_comp (emits_comp
    (emits_setLat Signal.CLK false) (emits_delay_us 2)) (emits_setLat Signal.DAT false))
    (emits_delay_us 10)) (emits_setLat Signal.CS true)) (emits_delay_us 10)
  intro s
  exact h s

/-- Trace of the common shape of the four profile functions. -/
theorem emits_profile (r5 r4 r3 r2 r1 r0 : Nat) :
    Emits (fun s => delay_ms 10 (spi_close (spi_snd r0 (spi_snd r1 (spi_snd r2 (spi_snd r3
      (spi_snd r4 (delay_ms 20 (spi_snd r5 (spi_open s))))))))))
      (profileTrace r5 r4 r3 r2 r1 r0) := by
  have h := emits_comp (emits_comp (emits_comp (emits_comp (emits_comp (emits_comp (emits_comp
    (emits_comp (emits_comp emits_spi_open (emits_spi_snd r5)) (emits_delay_ms 20))
    (emits_spi_snd r4)) (emits_spi_snd r3)) (emits_spi_snd r2)) (emits_spi_snd r1))
    (emits_spi_snd r0)) emits_spi_close) (emits_delay_ms 10)
  intro s
  exact h s

theorem emits_pll_700 : Emits pll_700 (profileTrace REG5 REG4 REG3 REG2 REG1 REG0) :=
  emits_profile REG5 REG4 REG3 REG2 REG1 REG0

theorem emits_pll_1G2 :
    Emits pll_1G2 (profileTrace REG5_1G2 REG4_1G2 REG3_1G2 REG2_1G2 REG1_1G2 REG0_1G2) :=
  emits_profile REG5_1G2 REG4_1G2 REG3_1G2 REG2_1G2 REG1_1G2 REG0_1G2

theorem emits_pll_2G4 :
    Emits pll_2G4 (profileTrace REG5_2G4 REG4_2G4 REG3_2G4 REG2_2G4 REG1_2G4 REG0_2G4) :=
  emits_profile REG5_2G4 REG4_2G4 REG3_2G4 REG2_2G4 REG1_2G4 REG0_2G4

theorem emits_pll_5G6 :
    Emits pll_5G6 (profileTrace REG5_5G6 REG4_5G6 REG3_5G6 REG2_5G6 REG1_5G6 REG0_5G6) :=
  emits_profile REG5_5G6 REG4_5G6 REG3_5G6 REG2_5G6 REG1_5G6 REG0_5G6

theorem levelAfter_byteTrace_CLK (c : Bool) (v : Nat) :
    levelAfter Signal.CLK c (byteTrace v) = false := rfl

theorem levelAfter_byteTrace_DAT (d : Bool) (v : Nat) :
    levelAfter Signal.DAT d (byteTrace v) = v.testBit 0 := rfl

theorem levelAfter_byteTrace_LE (b : Bool) (v : Nat) :
    levelAfter Signal.LE b (byteTrace v) = b := rfl

theorem levelAfter_byteTrace_CS (b : Bool) (v : Nat) :
    levelAfter Signal.CS b (byteTrace v) = b := rfl

theorem sampled_append (A B : List Event) : ∀ d : Bool,
    sampled d (A ++ B) = sampled d A ++ sampled (levelAfter Signal.DAT d A) B := by
  induction A with
  | nil => intro d; rfl
  | cons e t ih =>
    intro d
    show (if isClkRaise e then [d] else []) ++ sampled (evLevel Signal.DAT d e) (t ++ B) =
      ((if isClkRaise e then [d] else []) ++ sampled (evLevel Signal.DAT d e) t) ++
        sampled (levelAfter Signal.DAT (evLevel Signal.DAT d e) t) B
    rw [ih, List.append_assoc]

theorem sampled_byteTrace (d : Bool) (v : Nat) :
    sampled d (byteTrace v) = (List.range 8).map fun i => v.testBit (7 - i) := rfl

/-- Bits of the byte at offset `k` of a word, as the contract extracts it. -/
theorem testBit_specByte (w k j : Nat) (hj : j < 8) :
    ((w >>> k) &&& 0xFF).testBit j = w.testBit (k + j) := by
  rw [and_0xFF, Nat.testBit_mod_two_pow, Nat.testBit_shiftRight]
  simp [hj]

theorem sampled_specByte (d : Bool) (w k : Nat) :
    sampled d (byteTrace ((w >>> k) &&& 0xFF)) =
      (List.range 8).map fun i => w.testBit (k + (7 - i)) := by
  rw [sampled_byteTrace]
  apply List.map_congr_left
  intro i _
  exact testBit_specByte w k (7 - i) (by omega)

theorem sampled_sndTrace (d : Bool) (w : Nat) :
    sampled d (sndTrace w) = (List.range 32).map fun k => w.testBit (31 - k) := by
  have h0 : ∀ c : Bool, sampled c (byteTrace (w &&& 0xFF)) =
      (List.range 8).map fun i => w.testBit (0 + (7 - i)) := fun c => sampled_specByte c w 0
  unfold sndTrace
  rw [sampled_append, sampled_append, sampled_append, sampled_append, sampled_specByte,
    sampled_specByte, sampled_specByte, h0]
  rfl

theorem foldl_bits (w : Nat) (n : Nat) : ∀ acc : Nat,
    ((List.range n).map (fun k => w.testBit (n - 1 - k))).foldl
        (fun acc b => 2 * acc + b.toNat) acc
      = acc * 2 ^ n + w % 2 ^ n := by
  induction n with
  | zero => intro acc; simp [Nat.mod_one]
  | succ n ih =>
    intro acc
    rw [List.range_succ_eq_map, List.map_cons, List.map_map, List.foldl_cons]
    have e : ((fun k => w.testBit (n + 1 - 1 - k)) ∘ Nat.succ)
        = fun k => w.testBit (n - 1 - k) := by
      funext k
      simp only [Function.comp]
      congr 1
      omega
    rw [e, ih, Nat.mod_pow_succ, ← Nat.toNat_testBit]
    simp only [Nat.add_sub_cancel, Nat.sub_zero]
    ring

theorem ofBitsMSB_bits32 (w : Nat) :
    ofBitsMSB ((List.range 32).map fun k => w.testBit (31 - k)) = w % 2 ^ 32 := by
  have h := foldl_bits w 32 0
  simpa [ofBitsMSB] using h

theorem filter_clkOrLe_byteTrace (v : Nat) :
    (byteTrace v).filter isClkOrLe =
      (List.replicate 8 [Event.write Signal.CLK true, Event.write Signal.CLK false]).flatten :=
  rfl

theorem filter_clkOrLe_sndTrace (w : Nat) :
    (sndTrace w).filter isClkOrLe =
      (List.replicate 32 [Event.write Signal.CLK true, Event.write Signal.CLK false]).flatten ++
        [Event.write Signal.LE true, Event.write Signal.LE false] := by
  unfold sndTrace
  simp only [List.filter_append, filter_clkOrLe_byteTrace]
  rfl

theorem filter_delayMs_sndTrace (w : Nat) : (sndTrace w).filter isDelayMs = [] := rfl

theorem filter_delayMs_profileTrace (r5 r4 r3 r2 r1 r0 : Nat) :
    (profileTrace r5 r4 r3 r2 r1 r0).filter isDelayMs =
      [Event.delay_ms 20, Event.delay_ms 10] := by
  unfold profileTrace
  simp only [List.filter_append, filter_delayMs_sndTrace]
  rfl

theorem datStable_append (A B : List Event) : ∀ c : Bool,
    datStable c (A ++ B) = (datStable c A && datStable (levelAfter Signal.CLK c A) B) := by
  induction A with
  | nil => intro c; rfl
  | cons e t ih =>
    intro c
    show (!(isDatWrite e && c) && datStable (evLevel Signal.CLK c e) (t ++ B)) =
      ((!(isDatWrite e && c) && datStable (evLevel Signal.CLK c e) t) &&
        datStable (levelAfter Signal.CLK (evLevel Signal.CLK c e) t) B)
    rw [ih, Bool.and_assoc]

theorem datStable_bitCycle (b : Bool) : datStable false (bitCycle b) = true := rfl

theorem levelAfter_bitCycle_CLK (c b : Bool) :
    levelAfter Signal.CLK c (bitCycle b) = false := rfl

theorem datStable_cycles (f : Nat → Bool) (l : List Nat) :
    datStable false (l.flatMap fun i => bitCycle (f i)) = true ∧
      levelAfter Signal.CLK false (l.flatMap fun i => bitCycle (f i)) = false := by
  induction l with
  | nil => exact ⟨rfl, rfl⟩
  | cons a t ih =>
    rw [List.flatMap_cons, datStable_append, levelAfter_append, levelAfter_bitCycle_CLK,
      datStable_bitCycle, ih.1, ih.2]
    exact ⟨rfl, rfl⟩

theorem datStable_byteTrace (v : Nat) : datStable false (byteTrace v) = true :=
  (datStable_cycles (fun i => v.testBit (7 - i)) (List.range 8)).1

theorem levelAfter_sndTrace_CLK (c : Bool) (w : Nat) :
    levelAfter Signal.CLK c (sndTrace w) = false := by
  unfold sndTrace
  simp only [levelAfter_append, levelAfter_byteTrace_CLK]
  rfl

theorem datStable_sndTrace (w : Nat) : datStable false (sndTrace w) = true := by
  unfold sndTrace
  simp only [datStable_append, levelAfter_append, levelAfter_byteTrace_CLK, datStable_byteTrace]
  rfl

theorem datStable_profileTrace (r5 r4 r3 r2 r1 r0 : Nat) :
    datStable false (profileTrace r5 r4 r3 r2 r1 r0) = true := by
  unfold profileTrace
  simp only [datStable_append, levelAfter_append, levelAfter_sndTrace_CLK, datStable_sndTrace]
  rfl

theorem main_succ (k : Nat) (s : Mcu) : main (k + 1) s = main_step (main k s) :=
  Function.iterate_succ_apply' main_step k (Pc.init, s)

theorem main_add (a b : Nat) (s : Mcu) : main (a + b) s = main_step^[a] (main b s) :=
  Function.iterate_add_apply main_step a b (Pc.init, s)

/-- One full pass of the `while(1)` body. -/
theorem main_step_cycle (t : Mcu) :
    main_step^[6] (Pc.apply_1G2, t) =
      (Pc.apply_1G2, delay_ms 10000 (pll_5G6 (delay_ms 10000 (pll_2G4
        (delay_ms 10000 (pll_1G2 t)))))) := rfl

/-- After bring-up and `m` full passes, control is at the head of the loop. -/
theorem main_loop_head (m : Nat) (s : Mcu) : ∃ t, main (4 + 6 * m) s = (Pc.apply_1G2, t) := by
  induction m with
  | zero => exact ⟨_, rfl⟩
  | succ m ih =>
    obtain ⟨t, ht⟩ := ih
    have e : 4 + 6 * (m + 1) = 6 + (4 + 6 * m) := by ring
    rw [e, main_add, ht, main_step_cycle]
    exact ⟨_, rfl⟩

theorem main_step_not_returned (p : Pc) (s : Mcu) (h : p ≠ Pc.returned) :
    (main_step (p, s)).1 ≠ Pc.returned := by
  cases p <;> simp [main_step] at h ⊢

theorem main_step_inLoop (p : Pc) (s : Mcu) (h : inLoop p = true) :
    inLoop (main_step (p, s)).1 = true := by
  cases p <;> simp [main_step, inLoop] at h ⊢

theorem profileShape_of_emits {f : Mcu → Mcu} {r5 r4 r3 r2 r1 r0 : Nat}
    (h : Emits f (profileTrace r5 r4 r3 r2 r1 r0)) : ProfileShape f r5 r4 r3 r2 r1 r0 := by
  intro s t
  rw [emitted_eq h s, emitted_eq emits_spi_open t, emitted_eq emits_spi_close t,
    emitted_eq (emits_spi_snd r5) t, emitted_eq (emits_spi_snd r4) t,
    emitted_eq (emits_spi_snd r3) t, emitted_eq (emits_spi_snd r2) t,
    emitted_eq (emits_spi_snd r1) t, emitted_eq (emits_spi_snd r0) t]
  exact ⟨rfl, filter_delayMs_profileTrace r5 r4 r3 r2 r1 r0⟩

set_option maxRecDepth 100000 in
theorem bytes_profile_700 (d : Bool) :
    toBytes (sampled d (profileTrace REG5 REG4 REG3 REG2 REG1 REG0)) =
      [0x01, 0x40, 0x00, 0x05, 0x61, 0xBF, 0x42, 0xFC, 0x00, 0x00, 0x01, 0x33,
         0x00, 0x01, 0x00, 0x42, 0x20, 0x03, 0x03, 0xE9, 0x80, 0x70, 0x00, 0x00] := rfl

set_option maxRecDepth 100000 in
theorem bytes_profile_1G2 (d : Bool) :
    toBytes (sampled d (profileTrace REG5_1G2 REG4_1G2 REG3_1G2 REG2_1G2 REG1_1G2 REG0_1G2)) =
      [0x01, 0x40, 0x00, 0x05, 0x61, 0xAF, 0x42, 0xFC, 0x00, 0x00, 0x01, 0x33,
         0x00, 0x01, 0x0A, 0x42, 0x20, 0x03, 0x03, 0xE9, 0x00, 0x5C, 0x00, 0x00] := rfl

set_option maxRecDepth 100000 in
theorem bytes_profile_2G4 (d : Bool) :
    toBytes (sampled d (profileTrace REG5_2G4 REG4_2G4 REG3_2G4 REG2_2G4 REG1_2G4 REG0_2G4)) =
      [0x01, 0x40, 0x00, 0x05, 0x61, 0x9F, 0x42, 0xFC, 0x00, 0x00, 0x01, 0x33,
         0x00, 0x01, 0x0C, 0x42, 0x20, 0x03, 0x03, 0xE9, 0x00, 0x4F, 0x82, 0x58] := rfl

set_option maxRecDepth 100000 in
theorem bytes_profile_5G6 (d : Bool) :
    toBytes (sampled d (profileTrace REG5_5G6 REG4_5G6 REG3_5G6 REG2_5G6 REG1_5G6 REG0_5G6)) =
      [0x01, 0x40, 0x00, 0x05, 0x61, 0x8F, 0x42, 0xFC, 0x00, 0x00, 0x01, 0x33,
         0x00, 0x01, 0x0E, 0x42, 0x20, 0x03, 0x03, 0xE9, 0x00, 0x6A, 0x80, 0x78] := rfl

/-! ## Claims -/

/-- C1: for every 32-bit word `w`, the trace of `spi_snd w` has exactly 32 CLOCK raises
(writes of HIGH to CLOCK); the DATA level in force at the `k`-th raise is bit `31 - k`
of `w`, so the sampled bits read most significant first are the binary representation
of `w`; and the writes to CLOCK and LATCH_ENABLE are, in order, 32 CLOCK pulses and then
LATCH_ENABLE HIGH once and LOW once, so no LATCH_ENABLE write precedes the 32nd pulse. -/
theorem C1_spi_snd_bits (w : Nat) (hw : w < 2 ^ 32) (s : Mcu) :
    ((emitted (spi_snd w) s).filter isClkRaise).length = 32 ∧
      sampled (level Signal.DAT s) (emitted (spi_snd w) s) =
        (List.range 32).map (fun k => w.testBit (31 - k)) ∧
      ofBitsMSB (sampled (level Signal.DAT s) (emitted (spi_snd w) s)) = w ∧
      (emitted (spi_snd w) s).filter isClkOrLe =
        (List.replicate 32 [Event.write Signal.CLK true, Event.write Signal.CLK false]).flatten
          ++ [Event.write Signal.LE true, Event.write Signal.LE false] := by
  rw [emitted_eq (emits_spi_snd w) s]
  refine ⟨?_, sampled_sndTrace _ w, ?_, filter_clkOrLe_sndTrace w⟩
  · have h : (sndTrace w).filter isClkRaise =
        ((sndTrace w).filter isClkOrLe).filter isClkRaise := by
      rw [List.filter_filter]
      congr 1
      funext e
      cases e with
      | write sig v => cases sig <;> cases v <;> rfl
      | delay_us n => rfl
      | delay_ms n => rfl
      | sfr r v => rfl
    rw [h, filter_clkOrLe_sndTrace]
    rfl
  · rw [sampled_sndTrace, ofBitsMSB_bits32, Nat.mod_eq_of_lt hw]

/-- C1 at the word `0x61BF42FC`, from the state with all signal latches HIGH. -/
theorem C1_spi_snd_bits_witness :
    ((emitted (spi_snd 0x61BF42FC) busyState).filter isClkRaise).length = 32 ∧
      sampled (level Signal.DAT busyState) (emitted (spi_snd 0x61BF42FC) busyState) =
        (List.range 32).map (fun k => Nat.testBit 0x61BF42FC (31 - k)) ∧
      ofBitsMSB (sampled (level Signal.DAT busyState) (emitted (spi_snd 0x61BF42FC) busyState))
        = 0x61BF42FC ∧
      (emitted (spi_snd 0x61BF42FC) busyState).filter isClkOrLe =
        (List.replicate 32 [Event.write Signal.CLK true, Event.write Signal.CLK false]).flatten
          ++ [Event.write Signal.LE true, Event.write Signal.LE false] :=
  C1_spi_snd_bits 0x61BF42FC (by norm_num) busyState


/-- C7: for every value `v` (in particular every 8-bit one) the trace of `spi_byte v`
is exactly eight bit-cycles, the `i`-th (`i = 0..7`) being: write DATA to bit `7 - i`
of `v`, delay 2 µs, write CLOCK HIGH, delay 4 µs, write CLOCK LOW, delay 2 µs; so the
bits go out most significant first, and CLOCK is LOW when the call returns. -/
theorem C7_spi_byte_bit_cycles (v : Nat) (s : Mcu) :
    emitted (spi_byte v) s =
        (List.range 8).flatMap (fun i =>
          [Event.write Signal.DAT (v.testBit (7 - i)), Event.delay_us 2,
           Event.write Signal.CLK true, Event.delay_us 4,
           Event.write Signal.CLK false, Event.delay_us 2]) ∧
      (emitted (spi_byte v) s).length = 8 * 6 ∧
      level Signal.CLK (spi_byte v s) = false := by
  have h := emitted_eq (emits_spi_byte v) s
  refine ⟨h, ?_, ?_⟩
  · rw [h]; rfl
  · rw [((emits_spi_byte v) s).2 Signal.CLK]
    exact levelAfter_byteTrace_CLK _ v

/-- C3: idle invariant.  From every starting state, after `spi_close` CLOCK is LOW,
DATA is LOW and CHIP_SELECT is HIGH. -/
theorem C3_spi_close_idle (s : Mcu) :
    level Signal.CLK (spi_close s) = false ∧
      level Signal.DAT (spi_close s) = false ∧
      level Signal.CS (spi_close s) = true := by
  refine ⟨?_, ?_, ?_⟩
  · rw [(emits_spi_close s).2 Signal.CLK]; rfl
  · rw [(emits_spi_close s).2 Signal.DAT]; rfl
  · rw [(emits_spi_close s).2 Signal.CS]; rfl

/-- C9, as stated, fails: after `port_init` run from the all-zero state the DATA,
CLOCK and LATCH_ENABLE latches are HIGH and the CHIP_SELECT latch is LOW, so the
levels are not CLOCK low, DATA low, LATCH_ENABLE low, CHIP_SELECT high. -/
theorem C9_port_init_not_idle :
    ¬ (level Signal.CLK (port_init zeroState) = false ∧
        level Signal.DAT (port_init zeroState) = false ∧
        level Signal.LE (port_init zeroState) = false ∧
        level Signal.CS (port_init zeroState) = true) := by
  decide

/-- C9, amended: after `port_init`, from every starting state, `LATA` holds
`0b00000111`, so — DATA being `LATA` bit 0, CLOCK bit 1, LATCH_ENABLE bit 2 and
CHIP_SELECT bit 4 — DATA, CLOCK and LATCH_ENABLE are HIGH and CHIP_SELECT is LOW. -/
theorem C9_port_init_levels (s : Mcu) :
    (port_init s).LATA = 0b00000111 ∧
      latBit Signal.DAT = 0 ∧ latBit Signal.CLK = 1 ∧
      latBit Signal.LE = 2 ∧ latBit Signal.CS = 4 ∧
      level Signal.DAT (port_init s) = true ∧
      level Signal.CLK (port_init s) = true ∧
      level Signal.LE (port_init s) = true ∧
      level Signal.CS (port_init s) = false := by
  refine ⟨rfl, rfl, rfl, rfl, rfl, ?_, ?_, ?_, ?_⟩ <;>
    · show Nat.testBit 7 _ = _
      decide

/-- C2: each of `pll_700`, `pll_1G2`, `pll_2G4`, `pll_5G6` emits the trace of `spi_open`,
of `spi_snd` of its register 5, a 20 ms delay, the traces of `spi_snd` of its registers
4, 3, 2, 1, 0, of `spi_close`, and a 10 ms delay; the only millisecond delays of the
trace are that 20 ms one between registers 5 and 4 and the final 10 ms one. -/
theorem C2_profile_sequence :
    ProfileShape pll_700 REG5 REG4 REG3 REG2 REG1 REG0 ∧
      ProfileShape pll_1G2 REG5_1G2 REG4_1G2 REG3_1G2 REG2_1G2 REG1_1G2 REG0_1G2 ∧
      ProfileShape pll_2G4 REG5_2G4 REG4_2G4 REG3_2G4 REG2_2G4 REG1_2G4 REG0_2G4 ∧
      ProfileShape pll_5G6 REG5_5G6 REG4_5G6 REG3_5G6 REG2_5G6 REG1_5G6 REG0_5G6 :=
  ⟨profileShape_of_emits emits_pll_700, profileShape_of_emits emits_pll_1G2,
    profileShape_of_emits emits_pll_2G4, profileShape_of_emits emits_pll_5G6⟩

set_option maxRecDepth 100000 in
/-- C4: scenario TEST_700M.  The words of `pll_700` are reg0 = 0x80700000,
reg1 = 0x200303E9, reg2 = 0x00010042, reg3 = 0x00000133, reg4 = 0x61BF42FC,
reg5 = 0x01400005; the bytes `pll_700` shifts out are the 24 listed ones; the first
millisecond delay of the trace is the 20 ms one, four bytes go out before it and the
other twenty after it. -/
theorem C4_test_700M_bytes (s : Mcu) :
    (REG0 = 0x80700000 ∧ REG1 = 0x200303E9 ∧ REG2 = 0x00010042 ∧ REG3 = 0x00000133 ∧
        REG4 = 0x61BF42FC ∧ REG5 = 0x01400005) ∧
      toBytes (sampled (level Signal.DAT s) (emitted pll_700 s)) =
        [0x01, 0x40, 0x00, 0x05, 0x61, 0xBF, 0x42, 0xFC, 0x00, 0x00, 0x01, 0x33,
         0x00, 0x01, 0x00, 0x42, 0x20, 0x03, 0x03, 0xE9, 0x80, 0x70, 0x00, 0x00] ∧
      toBytes (sampled (level Signal.DAT s)
          ((emitted pll_700 s).takeWhile fun e => !isDelayMs e)) =
        [0x01, 0x40, 0x00, 0x05] ∧
      ((emitted pll_700 s).dropWhile fun e => !isDelayMs e).head? =
        some (Event.delay_ms 20) ∧
      toBytes (sampled false ((emitted pll_700 s).dropWhile fun e => !isDelayMs e).tail) =
        [0x61, 0xBF, 0x42, 0xFC, 0x00, 0x00, 0x01, 0x33,
         0x00, 0x01, 0x00, 0x42, 0x20, 0x03, 0x03, 0xE9, 0x80, 0x70, 0x00, 0x00] := by
  rw [emitted_eq emits_pll_700 s]
  refine ⟨⟨rfl, rfl, rfl, rfl, rfl, rfl⟩, ?_, ?_, ?_, ?_⟩ <;> rfl

/-- C6: no hidden state.  For each profile function the emitted trace is the same from
any two starting states; in particular a second application right after the first
emits the same trace again. -/
theorem C6_profile_trace_state_independent (s1 s2 : Mcu) :
    (emitted pll_700 s1 = emitted pll_700 s2 ∧ emitted pll_700 (pll_700 s1) = emitted pll_700 s1) ∧
      (emitted pll_1G2 s1 = emitted pll_1G2 s2 ∧
        emitted pll_1G2 (pll_1G2 s1) = emitted pll_1G2 s1) ∧
      (emitted pll_2G4 s1 = emitted pll_2G4 s2 ∧
        emitted pll_2G4 (pll_2G4 s1) = emitted pll_2G4 s1) ∧
      (emitted pll_5G6 s1 = emitted pll_5G6 s2 ∧
        emitted pll_5G6 (pll_5G6 s1) = emitted pll_5G6 s1) := by
  simp only [emitted_eq emits_pll_700, emitted_eq emits_pll_1G2, emitted_eq emits_pll_2G4,
    emitted_eq emits_pll_5G6, and_self]

/-- C8: started from a state in which CLOCK is LOW, no profile function writes DATA
while CLOCK is HIGH. -/
theorem C8_data_stable_while_clock_high (s : Mcu) (h : level Signal.CLK s = false) :
    datStable (level Signal.CLK s) (emitted pll_700 s) = true ∧
      datStable (level Signal.CLK s) (emitted pll_1G2 s) = true ∧
      datStable (level Signal.CLK s) (emitted pll_2G4 s) = true ∧
      datStable (level Signal.CLK s) (emitted pll_5G6 s) = true := by
  rw [h, emitted_eq emits_pll_700, emitted_eq emits_pll_1G2, emitted_eq emits_pll_2G4,
    emitted_eq emits_pll_5G6]
  exact ⟨datStable_profileTrace _ _ _ _ _ _, datStable_profileTrace _ _ _ _ _ _,
    datStable_profileTrace _ _ _ _ _ _, datStable_profileTrace _ _ _ _ _ _⟩

/-- C8 at the all-zero state, whose CLOCK latch is LOW. -/
theorem C8_data_stable_while_clock_high_witness :
    level Signal.CLK zeroState = false ∧
      datStable (level Signal.CLK zeroState) (emitted pll_700 zeroState) = true ∧
      datStable (level Signal.CLK zeroState) (emitted pll_1G2 zeroState) = true ∧
      datStable (level Signal.CLK zeroState) (emitted pll_2G4 zeroState) = true ∧
      datStable (level Signal.CLK zeroState) (emitted pll_5G6 zeroState) = true :=
  ⟨by decide, C8_data_stable_while_clock_high zeroState (by decide)⟩

/-- C10: descending address order.  For each profile function the six words shifted
out are its registers 5, 4, 3, 2, 1, 0 in this order, and their low three bits are
5, 4, 3, 2, 1, 0: the `k`-th word is congruent to `5 - k` modulo 8. -/
theorem C10_descending_addresses :
    DescendingAddresses pll_700 REG5 REG4 REG3 REG2 REG1 REG0 ∧
      DescendingAddresses pll_1G2 REG5_1G2 REG4_1G2 REG3_1G2 REG2_1G2 REG1_1G2 REG0_1G2 ∧
      DescendingAddresses pll_2G4 REG5_2G4 REG4_2G4 REG3_2G4 REG2_2G4 REG1_2G4 REG0_2G4 ∧
      DescendingAddresses pll_5G6 REG5_5G6 REG4_5G6 REG3_5G6 REG2_5G6 REG1_5G6 REG0_5G6 := by
  refine ⟨fun s => ?_, fun s => ?_, fun s => ?_, fun s => ?_⟩
  · rw [emitted_eq emits_pll_700 s, sentWords, bytes_profile_700]
    exact ⟨by decide, by decide⟩
  · rw [emitted_eq emits_pll_1G2 s, sentWords, bytes_profile_1G2]
    exact ⟨by decide, by decide⟩
  · rw [emitted_eq emits_pll_2G4 s, sentWords, bytes_profile_2G4]
    exact ⟨by decide, by decide⟩
  · rw [emitted_eq emits_pll_5G6 s, sentWords, bytes_profile_5G6]
    exact ⟨by decide, by decide⟩

/-- C5: rotation.  Once bring-up is over (four statements), for every `m` the
profiles applied by the loop with index `3 m`, `3 m + 1`, `3 m + 2` are `pll_1G2`,
`pll_2G4`, `pll_5G6`, each followed at once by a 10000 ms delay; from then on control
stays inside the loop, and `main` never reaches its end. -/
theorem C5_rotation (m : Nat) (s : Mcu) :
    ((main (4 + 2 * (3 * m) + 1) s).2 = pll_1G2 (main (4 + 2 * (3 * m)) s).2 ∧
        (main (4 + 2 * (3 * m) + 2) s).2 = delay_ms 10000 (main (4 + 2 * (3 * m) + 1) s).2) ∧
      ((main (4 + 2 * (3 * m + 1) + 1) s).2 = pll_2G4 (main (4 + 2 * (3 * m + 1)) s).2 ∧
        (main (4 + 2 * (3 * m + 1) + 2) s).2 =
          delay_ms 10000 (main (4 + 2 * (3 * m + 1) + 1) s).2) ∧
      ((main (4 + 2 * (3 * m + 2) + 1) s).2 = pll_5G6 (main (4 + 2 * (3 * m + 2)) s).2 ∧
        (main (4 + 2 * (3 * m + 2) + 2) s).2 =
          delay_ms 10000 (main (4 + 2 * (3 * m + 2) + 1) s).2) ∧
      (∀ k, inLoop (main (4 + k) s).1 = true) ∧
      (∀ k, (main k s).1 ≠ Pc.returned) := by
  obtain ⟨t, ht⟩ := main_loop_head m s
  have e0 : 4 + 2 * (3 * m) = 4 + 6 * m := by ring
  have e1 : 4 + 2 * (3 * m) + 1 = 4 + 6 * m + 1 := by ring
  have e2 : 4 + 2 * (3 * m) + 2 = 4 + 6 * m + 1 + 1 := by ring
  have e3 : 4 + 2 * (3 * m + 1) = 4 + 6 * m + 1 + 1 := by ring
  have e4 : 4 + 2 * (3 * m + 1) + 1 = 4 + 6 * m + 1 + 1 + 1 := by ring
  have e5 : 4 + 2 * (3 * m + 1) + 2 = 4 + 6 * m + 1 + 1 + 1 + 1 := by ring
  have e6 : 4 + 2 * (3 * m + 2) = 4 + 6 * m + 1 + 1 + 1 + 1 := by ring
  have e7 : 4 + 2 * (3 * m + 2) + 1 = 4 + 6 * m + 1 + 1 + 1 + 1 + 1 := by ring
  have e8 : 4 + 2 * (3 * m + 2) + 2 = 4 + 6 * m + 1 + 1 + 1 + 1 + 1 + 1 := by ring
  refine ⟨?_, ?_, ?_, ?_, ?_⟩
  · rw [e2, e1, e0]
    simp only [main_succ, ht, main_step]
    exact ⟨trivial, trivial⟩
  · rw [e5, e4, e3]
    simp only [main_succ, ht, main_step]
    exact ⟨trivial, trivial⟩
  · rw [e8, e7, e6]
    simp only [main_succ, ht, main_step]
    exact ⟨trivial, trivial⟩
  · intro k
    induction k with
    | zero =>
      show inLoop (main_step (main_step (main_step (main_step (Pc.init, s))))).1 = true
      simp only [main_step, inLoop]
    | succ k ih =>
      have e : 4 + (k + 1) = (4 + k) + 1 := by ring
      rw [e, main_succ]
      exact main_step_inLoop _ _ ih
  · intro k
    induction k with
    | zero =>
      show (Pc.init, s).1 ≠ Pc.returned
      simp
    | succ k ih =>
      rw [main_succ]
      exact main_step_not_returned _ _ ih

/-- C11: for every 32-bit word `w`, the trace of `spi_snd w` is that of `spi_byte` on
`(w >> 24) & 0xFF`, on `(w >> 16) & 0xFF`, on `(w >> 8) & 0xFF` and on `w & 0xFF`, in
this order, followed by: delay 2 µs, LATCH_ENABLE HIGH, delay 10 µs, LATCH_ENABLE LOW,
delay 2 µs; and the four bytes reassemble to `w`. -/
theorem C11_spi_snd_bytes (w : Nat) (hw : w < 2 ^ 32) (s t : Mcu) :
    emitted (spi_snd w) s =
        emitted (spi_byte ((w >>> 24) &&& 0xFF)) t ++ emitted (spi_byte ((w >>> 16) &&& 0xFF)) t ++
          emitted (spi_byte ((w >>> 8) &&& 0xFF)) t ++ emitted (spi_byte (w &&& 0xFF)) t ++
          [Event.delay_us 2, Event.write Signal.LE true, Event.delay_us 10,
           Event.write Signal.LE false, Event.delay_us 2] ∧
      ((w >>> 24) &&& 0xFF) * 2 ^ 24 + ((w >>> 16) &&& 0xFF) * 2 ^ 16 +
        ((w >>> 8) &&& 0xFF) * 2 ^ 8 + (w &&& 0xFF) = w := by
  constructor
  · rw [emitted_eq (emits_spi_snd w) s, emitted_eq (emits_spi_byte _) t,
      emitted_eq (emits_spi_byte _) t, emitted_eq (emits_spi_byte _) t,
      emitted_eq (emits_spi_byte _) t]
    rfl
  · rw [and_0xFF, and_0xFF, and_0xFF, and_0xFF, Nat.shiftRight_eq_div_pow,
      Nat.shiftRight_eq_div_pow, Nat.shiftRight_eq_div_pow]
    norm_num at hw ⊢
    omega

/-- C11 at the word `0x004F8258`. -/
theorem C11_spi_snd_bytes_witness :
    emitted (spi_snd 0x004F8258) busyState =
        emitted (spi_byte ((0x004F8258 >>> 24) &&& 0xFF)) zeroState ++
          emitted (spi_byte ((0x004F8258 >>> 16) &&& 0xFF)) zeroState ++
          emitted (spi_byte ((0x004F8258 >>> 8) &&& 0xFF)) zeroState ++
          emitted (spi_byte (0x004F8258 &&& 0xFF)) zeroState ++
          [Event.delay_us 2, Event.write Signal.LE true, Event.delay_us 10,
           Event.write Signal.LE false, Event.delay_us 2] ∧
      ((0x004F8258 >>> 24) &&& 0xFF) * 2 ^ 24 + ((0x004F8258 >>> 16) &&& 0xFF) * 2 ^ 16 +
        ((0x004F8258 >>> 8) &&& 0xFF) * 2 ^ 8 + (0x004F8258 &&& 0xFF) = 0x004F8258 :=
  C11_spi_snd_bytes 0x004F8258 (by norm_num) busyState zeroState

/-- C12: the trace of `spi_open` is exactly: CHIP_SELECT HIGH, delay 2 µs;
LATCH_ENABLE HIGH, delay 10 µs; DATA LOW, delay 2 µs; CLOCK LOW, delay 2 µs;
CHIP_SELECT LOW, delay 10 µs; LATCH_ENABLE LOW, delay 2 µs. -/
theorem C12_spi_open_trace (s : Mcu) :
    emitted spi_open s =
      [Event.write Signal.CS true, Event.delay_us 2,
       Event.write Signal.LE true, Event.delay_us 10,
       Event.write Signal.DAT false, Event.delay_us 2,
       Event.write Signal.CLK false, Event.delay_us 2,
       Event.write Signal.CS false, Event.delay_us 10,
       Event.write Signal.LE false, Event.delay_us 2] := by
  rw [emitted_eq emits_spi_open s]
  rfl

/-- C13: the trace of `spi_close` is exactly: CLOCK LOW, delay 2 µs; DATA LOW, delay
10 µs; CHIP_SELECT HIGH, delay 10 µs; in particular it has no write to LATCH_ENABLE. -/
theorem C13_spi_close_trace (s : Mcu) :
    emitted spi_close s =
        [Event.write Signal.CLK false, Event.delay_us 2,
         Event.write Signal.DAT false, Event.delay_us 10,
         Event.write Signal.CS true, Event.delay_us 10] ∧
      (emitted spi_close s).filter (isWriteTo Signal.LE) = [] := by
  rw [emitted_eq emits_spi_close s]
  exact ⟨rfl, rfl⟩

/-! ## Pin levels after a profile, and the bring-up of `main` -/

theorem levelAfter_sndTrace_LE (b : Bool) (w : Nat) :
    levelAfter Signal.LE b (sndTrace w) = false := by
  unfold sndTrace
  simp only [levelAfter_append, levelAfter_byteTrace_LE]
  rfl

theorem levelAfter_profileTrace_DAT (b : Bool) (r5 r4 r3 r2 r1 r0 : Nat) :
    levelAfter Signal.DAT b (profileTrace r5 r4 r3 r2 r1 r0) = false := by
  unfold profileTrace
  simp only [levelAfter_append]
  rfl

theorem levelAfter_profileTrace_CLK (b : Bool) (r5 r4 r3 r2 r1 r0 : Nat) :
    levelAfter Signal.CLK b (profileTrace r5 r4 r3 r2 r1 r0) = false := by
  unfold profileTrace
  simp only [levelAfter_append]
  rfl

theorem levelAfter_profileTrace_CS (b : Bool) (r5 r4 r3 r2 r1 r0 : Nat) :
    levelAfter Signal.CS b (profileTrace r5 r4 r3 r2 r1 r0) = true := by
  unfold profileTrace
  simp only [levelAfter_append]
  rfl

theorem levelAfter_profileTrace_LE (b : Bool) (r5 r4 r3 r2 r1 r0 : Nat) :
    levelAfter Signal.LE b (profileTrace r5 r4 r3 r2 r1 r0) = false := by
  unfold profileTrace
  simp only [levelAfter_append, levelAfter_sndTrace_LE]
  rfl

/-- Whatever emits a profile trace leaves the pins idle. -/
theorem idle_of_emits {f : Mcu → Mcu} {r5 r4 r3 r2 r1 r0 : Nat}
    (h : Emits f (profileTrace r5 r4 r3 r2 r1 r0)) (s : Mcu) :
    level Signal.DAT (f s) = false ∧ level Signal.CLK (f s) = false ∧
      level Signal.LE (f s) = false ∧ level Signal.CS (f s) = true := by
  refine ⟨?_, ?_, ?_, ?_⟩
  · rw [(h s).2 Signal.DAT, levelAfter_profileTrace_DAT]
  · rw [(h s).2 Signal.CLK, levelAfter_profileTrace_CLK]
  · rw [(h s).2 Signal.LE, levelAfter_profileTrace_LE]
  · rw [(h s).2 Signal.CS, levelAfter_profileTrace_CS]

theorem idle_iff (s : Mcu) :
    idle s = true ↔ (level Signal.DAT s = false ∧ level Signal.CLK s = false ∧
      level Signal.LE s = false ∧ level Signal.CS s = true) := by
  unfold idle
  cases level Signal.DAT s <;> cases level Signal.CLK s <;> cases level Signal.LE s <;>
    cases level Signal.CS s <;> simp

theorem idle_delay_ms (n : Nat) (s : Mcu) : idle (delay_ms n s) = idle s := rfl

/-- From the statement after the call of `pll_700` on, the pins are idle at every
program point of `main`. -/
theorem main_idle (k : Nat) (s : Mcu) :
    past700 (main (3 + k) s).1 = true ∧ idle (main (3 + k) s).2 = true := by
  induction k with
  | zero =>
    show past700 (main_step (main_step (main_step (Pc.init, s)))).1 = true ∧
      idle (main_step (main_step (main_step (Pc.init, s)))).2 = true
    simp only [main_step, past700, true_and]
    exact (idle_iff _).2 (idle_of_emits emits_pll_700 _)
  | succ k ih =>
    have e : 3 + (k + 1) = (3 + k) + 1 := by ring
    rw [e, main_succ]
    obtain ⟨hp, hi⟩ := ih
    generalize main (3 + k) s = st at hp hi
    obtain ⟨p, t⟩ := st
    cases p <;> simp only [past700, Bool.false_eq_true] at hp <;>
      simp only [main_step, past700, true_and, idle_delay_ms]
    · exact hi
    · exact (idle_iff _).2 (idle_of_emits emits_pll_1G2 _)
    · exact hi
    · exact (idle_iff _).2 (idle_of_emits emits_pll_2G4 _)
    · exact hi
    · exact (idle_iff _).2 (idle_of_emits emits_pll_5G6 _)
    · exact hi

theorem emits_port_init :
    Emits port_init
      [Event.sfr Sfr.OSCCON 0b01101000, Event.sfr Sfr.TRISA 0b00101000,
       Event.sfr Sfr.OPTION_REG 0b00000000, Event.sfr Sfr.WPUA 0b00101000,
       Event.sfr Sfr.INTCON 0b00000000, Event.sfr Sfr.LATA 0b00000111,
       Event.sfr Sfr.ANSELA 0b00000000] := by
  intro s
  exact ⟨rfl, fun sig => rfl⟩

theorem applied700_succ (n : Nat) (s : Mcu) :
    applied700 (n + 1) s =
      applied700 n s + (if (main n s).1 = Pc.apply_700 then 1 else 0) := by
  unfold applied700
  rw [List.range_succ, List.filter_append, List.length_append]
  congr 1
  by_cases h : (main n s).1 = Pc.apply_700 <;> simp [List.filter, h]

theorem applied700_three (s : Mcu) : applied700 3 s = 1 := by
  rw [applied700_succ, applied700_succ, applied700_succ]
  show ((List.range 0).filter _).length +
    (if (Pc.init, s).1 = Pc.apply_700 then 1 else 0) +
    (if (main_step (Pc.init, s)).1 = Pc.apply_700 then 1 else 0) +
    (if (main_step (main_step (Pc.init, s))).1 = Pc.apply_700 then 1 else 0) = 1
  simp [main_step]

theorem applied700_past (k : Nat) (s : Mcu) : applied700 (3 + k) s = 1 := by
  induction k with
  | zero => exact applied700_three s
  | succ k ih =>
    have e : 3 + (k + 1) = (3 + k) + 1 := by ring
    rw [e, applied700_succ, ih]
    have hp := (main_idle k s).1
    have hne : (main (3 + k) s).1 ≠ Pc.apply_700 := by
      intro h
      rw [h] at hp
      exact absurd hp (by decide)
    simp [hne]


theorem applied700_mono (n m : Nat) (s : Mcu) : applied700 n s ≤ applied700 (n + m) s := by
  induction m with
  | zero => exact le_refl _
  | succ m ih =>
    have e : n + (m + 1) = (n + m) + 1 := by ring
    rw [e, applied700_succ]
    exact le_trans ih (Nat.le_add_right _ _)

theorem applied700_le_one (k : Nat) (s : Mcu) : applied700 k s ≤ 1 := by
  have h := applied700_mono k 3 s
  have e : k + 3 = 3 + k := by ring
  rw [e, applied700_past] at h
  exact h

/-! ## Clock and latch edges of the four profile traces -/

theorem risingEdges_append (A B : List Event) : ∀ c cs le : Bool,
    risingEdges c cs le (A ++ B) =
      risingEdges c cs le A ++
        risingEdges (levelAfter Signal.CLK c A) (levelAfter Signal.CS cs A)
          (levelAfter Signal.LE le A) B := by
  induction A with
  | nil => intro c cs le; rfl
  | cons e t ih =>
    intro c cs le
    show (if isClkRaise e && !c then [(cs, le)] else []) ++
        risingEdges (evLevel Signal.CLK c e) (evLevel Signal.CS cs e) (evLevel Signal.LE le e)
          (t ++ B) =
      ((if isClkRaise e && !c then [(cs, le)] else []) ++
        risingEdges (evLevel Signal.CLK c e) (evLevel Signal.CS cs e)
          (evLevel Signal.LE le e) t) ++
        risingEdges (levelAfter Signal.CLK (evLevel Signal.CLK c e) t)
          (levelAfter Signal.CS (evLevel Signal.CS cs e) t)
          (levelAfter Signal.LE (evLevel Signal.LE le e) t) B
    rw [ih, List.append_assoc]

theorem risingEdges_byteTrace (cs le : Bool) (v : Nat) :
    risingEdges false cs le (byteTrace v) = List.replicate 8 (cs, le) := rfl

theorem levelAfter_sndTrace_CS (b : Bool) (w : Nat) :
    levelAfter Signal.CS b (sndTrace w) = b := by
  unfold sndTrace
  simp only [levelAfter_append, levelAfter_byteTrace_CS]
  rfl

theorem risingEdges_sndTrace (cs le : Bool) (w : Nat) :
    risingEdges false cs le (sndTrace w) = List.replicate 32 (cs, le) := by
  unfold sndTrace
  simp only [risingEdges_append, levelAfter_append, levelAfter_byteTrace_CLK,
    levelAfter_byteTrace_CS, levelAfter_byteTrace_LE, risingEdges_byteTrace]
  rfl

theorem risingEdges_profileTrace (c cs le : Bool) (r5 r4 r3 r2 r1 r0 : Nat) :
    risingEdges c cs le (profileTrace r5 r4 r3 r2 r1 r0) =
      List.replicate 192 (false, false) := by
  have ho : risingEdges c cs le openTrace = [] := rfl
  have hc : levelAfter Signal.CLK c openTrace = false := rfl
  have hs : levelAfter Signal.CS cs openTrace = false := rfl
  have hl : levelAfter Signal.LE le openTrace = false := rfl
  have hd : ∀ (sig : Signal) (b : Bool) (m : Nat),
      levelAfter sig b [Event.delay_ms m] = b := fun _ _ _ => rfl
  have hr : ∀ (a b d : Bool) (m : Nat),
      risingEdges a b d [Event.delay_ms m] = [] := fun _ _ _ _ => rfl
  have hcl : ∀ b d : Bool, risingEdges false b d closeTrace = [] := fun _ _ => rfl
  unfold profileTrace
  simp only [risingEdges_append, levelAfter_append, ho, hc, hs, hl, hd, hr, hcl,
    levelAfter_sndTrace_CLK, levelAfter_sndTrace_CS, levelAfter_sndTrace_LE,
    risingEdges_sndTrace, List.nil_append, List.append_nil, List.append_replicate_replicate]

theorem leRises_append (A B : List Event) : ∀ (c le : Bool) (n : Nat),
    leRises c le n (A ++ B) =
      leRises c le n A ++
        leRises (levelAfter Signal.CLK c A) (levelAfter Signal.LE le A) (clkCount c le n A) B := by
  induction A with
  | nil => intro c le n; rfl
  | cons e t ih =>
    intro c le n
    show (if isLeRaise e && !le then [n] else []) ++
        leRises (evLevel Signal.CLK c e) (evLevel Signal.LE le e)
          (if isWriteTo Signal.LE e && (evLevel Signal.LE le e != le) then 0
            else if isClkRaise e && !c then n + 1 else n) (t ++ B) = _
    rw [ih, ← List.append_assoc]
    rfl

theorem clkCount_append (A B : List Event) : ∀ (c le : Bool) (n : Nat),
    clkCount c le n (A ++ B) =
      clkCount (levelAfter Signal.CLK c A) (levelAfter Signal.LE le A) (clkCount c le n A) B := by
  induction A with
  | nil => intro c le n; rfl
  | cons e t ih =>
    intro c le n
    show clkCount (evLevel Signal.CLK c e) (evLevel Signal.LE le e)
        (if isWriteTo Signal.LE e && (evLevel Signal.LE le e != le) then 0
          else if isClkRaise e && !c then n + 1 else n) (t ++ B) = _
    rw [ih]
    rfl

theorem leRises_byteTrace (n v : Nat) : leRises false false n (byteTrace v) = [] := rfl

theorem clkCount_byteTrace (n v : Nat) : clkCount false false n (byteTrace v) = n + 8 := rfl

theorem leRises_sndTrace (n w : Nat) : leRises false false n (sndTrace w) = [n + 32] := by
  unfold sndTrace
  simp only [leRises_append, clkCount_append, levelAfter_append, levelAfter_byteTrace_CLK,
    levelAfter_byteTrace_LE, leRises_byteTrace, clkCount_byteTrace]
  rfl

theorem clkCount_sndTrace (n w : Nat) : clkCount false false n (sndTrace w) = 0 := by
  unfold sndTrace
  simp only [clkCount_append, levelAfter_append, levelAfter_byteTrace_CLK,
    levelAfter_byteTrace_LE, clkCount_byteTrace]
  rfl

theorem leRises_profileTrace (c le : Bool) (r5 r4 r3 r2 r1 r0 : Nat) :
    leRises c le 0 (profileTrace r5 r4 r3 r2 r1 r0) =
      if le then List.replicate 6 32 else 0 :: List.replicate 6 32 := by
  have ho : leRises c le 0 openTrace = if le then [] else [0] := by cases le <;> rfl
  have hn : clkCount c le 0 openTrace = 0 := by cases le <;> rfl
  have hc : levelAfter Signal.CLK c openTrace = false := rfl
  have hl : levelAfter Signal.LE le openTrace = false := rfl
  have hd : ∀ (m k : Nat), leRises false false k [Event.delay_ms m] = [] := fun _ _ => rfl
  have hd' : ∀ (m k : Nat), clkCount false false k [Event.delay_ms m] = k := fun _ _ => rfl
  have hv : ∀ (sig : Signal) (b : Bool) (m : Nat),
      levelAfter sig b [Event.delay_ms m] = b := fun _ _ _ => rfl
  have hcl : ∀ k : Nat, leRises false false k closeTrace = [] := fun _ => rfl
  have hcn : ∀ k : Nat, clkCount false false k closeTrace = k := fun _ => rfl
  have hcc : levelAfter Signal.CLK false closeTrace = false := rfl
  have hcle : levelAfter Signal.LE false closeTrace = false := rfl
  unfold profileTrace
  simp only [leRises_append, clkCount_append, levelAfter_append, ho, hn, hc, hl, hd, hd', hv,
    hcl, hcn, hcc, hcle, levelAfter_sndTrace_CLK, levelAfter_sndTrace_LE, leRises_sndTrace,
    clkCount_sndTrace]
  cases le <;> rfl

theorem firstRaise_profile_700 (sig : Signal) :
    ((profileTrace REG5 REG4 REG3 REG2 REG1 REG0).takeWhile
      fun e => !isClkRaise e).any (isWriteTo sig) = true := by
  cases sig <;> rfl

theorem firstRaise_profile_1G2 (sig : Signal) :
    ((profileTrace REG5_1G2 REG4_1G2 REG3_1G2 REG2_1G2 REG1_1G2 REG0_1G2).takeWhile
      fun e => !isClkRaise e).any (isWriteTo sig) = true := by
  cases sig <;> rfl

theorem firstRaise_profile_2G4 (sig : Signal) :
    ((profileTrace REG5_2G4 REG4_2G4 REG3_2G4 REG2_2G4 REG1_2G4 REG0_2G4).takeWhile
      fun e => !isClkRaise e).any (isWriteTo sig) = true := by
  cases sig <;> rfl

theorem firstRaise_profile_5G6 (sig : Signal) :
    ((profileTrace REG5_5G6 REG4_5G6 REG3_5G6 REG2_5G6 REG1_5G6 REG0_5G6).takeWhile
      fun e => !isClkRaise e).any (isWriteTo sig) = true := by
  cases sig <;> rfl

/-- C14: bring-up.  The first four statements of `main` are `port_init`, a 1000 ms
delay, `pll_700` and a 10000 ms delay, so the log then holds the register writes of
`port_init`, the 1000 ms delay, the whole trace of `pll_700` and the 10000 ms delay;
only then comes the first rotation profile, `pll_1G2`; `pll_700` is applied at most
once in any finite prefix of the execution of `main`, and exactly once in every prefix
that reaches past the third statement (its call). -/
theorem C14_bringup (s : Mcu) (k : Nat) :
    (main 4 s).2 = delay_ms 10000 (pll_700 (delay_ms 1000 (port_init s))) ∧
      (main 4 s).2.log =
        s.log ++ emitted port_init s ++ [Event.delay_ms 1000] ++ emitted pll_700 s ++
          [Event.delay_ms 10000] ∧
      (main 4 s).1 = Pc.apply_1G2 ∧
      (main 5 s).2 = pll_1G2 (main 4 s).2 ∧
      (main 5 s).2.log = (main 4 s).2.log ++ emitted pll_1G2 s ∧
      applied700 k s ≤ 1 ∧
      applied700 (3 + k) s = 1 := by
  have h4 : main 4 s = (Pc.apply_1G2, delay_ms 10000 (pll_700 (delay_ms 1000 (port_init s)))) :=
    rfl
  have h5 : main 5 s = main_step (main 4 s) := main_succ 4 s
  have hl := (emits_comp (emits_comp (emits_comp emits_port_init (emits_delay_ms 1000))
    emits_pll_700) (emits_delay_ms 10000) s).1
  refine ⟨?_, ?_, ?_, ?_, ?_, applied700_le_one k s, applied700_past k s⟩
  · rw [h4]
  · rw [h4, emitted_eq emits_port_init s, emitted_eq emits_pll_700 s]
    rw [hl]
    simp only [List.append_assoc]
  · rw [h4]
  · rw [h5, h4]
    rfl
  · rw [h5, h4, emitted_eq emits_pll_1G2 s]
    exact (emits_pll_1G2 _).1

/-- C15: from every starting state `spi_open` writes each of the four signals and
leaves DATA, CLOCK, CHIP_SELECT and LATCH_ENABLE low; and in the trace of every profile
function a CLOCK raise occurs, and each of the four signals is written before the
first one. -/
theorem C15_signals_driven_before_clock (s : Mcu) (sig : Signal) :
    (emitted spi_open s).any (isWriteTo sig) = true ∧
      (level Signal.DAT (spi_open s) = false ∧ level Signal.CLK (spi_open s) = false ∧
        level Signal.CS (spi_open s) = false ∧ level Signal.LE (spi_open s) = false) ∧
      ((emitted pll_700 s).any isClkRaise = true ∧
        ((emitted pll_700 s).takeWhile fun e => !isClkRaise e).any (isWriteTo sig) = true) ∧
      ((emitted pll_1G2 s).any isClkRaise = true ∧
        ((emitted pll_1G2 s).takeWhile fun e => !isClkRaise e).any (isWriteTo sig) = true) ∧
      ((emitted pll_2G4 s).any isClkRaise = true ∧
        ((emitted pll_2G4 s).takeWhile fun e => !isClkRaise e).any (isWriteTo sig) = true) ∧
      ((emitted pll_5G6 s).any isClkRaise = true ∧
        ((emitted pll_5G6 s).takeWhile fun e => !isClkRaise e).any (isWriteTo sig) = true) := by
  refine ⟨?_, ⟨?_, ?_, ?_, ?_⟩, ?_, ?_, ?_, ?_⟩
  · rw [emitted_eq emits_spi_open s]
    cases sig <;> rfl
  · rw [(emits_spi_open s).2 Signal.DAT]; rfl
  · rw [(emits_spi_open s).2 Signal.CLK]; rfl
  · rw [(emits_spi_open s).2 Signal.CS]; rfl
  · rw [(emits_spi_open s).2 Signal.LE]; rfl
  · rw [emitted_eq emits_pll_700 s]
    exact ⟨rfl, firstRaise_profile_700 sig⟩
  · rw [emitted_eq emits_pll_1G2 s]
    exact ⟨rfl, firstRaise_profile_1G2 sig⟩
  · rw [emitted_eq emits_pll_2G4 s]
    exact ⟨rfl, firstRaise_profile_2G4 sig⟩
  · rw [emitted_eq emits_pll_5G6 s]
    exact ⟨rfl, firstRaise_profile_5G6 sig⟩

/-- C16: from every starting state, the trace of each profile function has exactly
192 LOW-to-HIGH writes of CLOCK, and at each of them CHIP_SELECT and LATCH_ENABLE are
both LOW. -/
theorem C16_clock_edges_selected_unlatched (s : Mcu) :
    risingEdges (level Signal.CLK s) (level Signal.CS s) (level Signal.LE s)
        (emitted pll_700 s) = List.replicate 192 (false, false) ∧
      risingEdges (level Signal.CLK s) (level Signal.CS s) (level Signal.LE s)
        (emitted pll_1G2 s) = List.replicate 192 (false, false) ∧
      risingEdges (level Signal.CLK s) (level Signal.CS s) (level Signal.LE s)
        (emitted pll_2G4 s) = List.replicate 192 (false, false) ∧
      risingEdges (level Signal.CLK s) (level Signal.CS s) (level Signal.LE s)
        (emitted pll_5G6 s) = List.replicate 192 (false, false) := by
  rw [emitted_eq emits_pll_700 s, emitted_eq emits_pll_1G2 s, emitted_eq emits_pll_2G4 s,
    emitted_eq emits_pll_5G6 s]
  exact ⟨risingEdges_profileTrace _ _ _ _ _ _ _ _ _, risingEdges_profileTrace _ _ _ _ _ _ _ _ _,
    risingEdges_profileTrace _ _ _ _ _ _ _ _ _, risingEdges_profileTrace _ _ _ _ _ _ _ _ _⟩

/-- C17: from every starting state, each profile function returns with DATA low,
CLOCK low, LATCH_ENABLE low and CHIP_SELECT high; so this idle state is kept by every
profile function, and every loop profile of `main` (the one with index `n`, applied
after bring-up and `n` earlier loop profiles) starts from it. -/
theorem C17_profile_leaves_idle (s : Mcu) (n : Nat) :
    (level Signal.DAT (pll_700 s) = false ∧ level Signal.CLK (pll_700 s) = false ∧
        level Signal.LE (pll_700 s) = false ∧ level Signal.CS (pll_700 s) = true) ∧
      (level Signal.DAT (pll_1G2 s) = false ∧ level Signal.CLK (pll_1G2 s) = false ∧
        level Signal.LE (pll_1G2 s) = false ∧ level Signal.CS (pll_1G2 s) = true) ∧
      (level Signal.DAT (pll_2G4 s) = false ∧ level Signal.CLK (pll_2G4 s) = false ∧
        level Signal.LE (pll_2G4 s) = false ∧ level Signal.CS (pll_2G4 s) = true) ∧
      (level Signal.DAT (pll_5G6 s) = false ∧ level Signal.CLK (pll_5G6 s) = false ∧
        level Signal.LE (pll_5G6 s) = false ∧ level Signal.CS (pll_5G6 s) = true) ∧
      (idle (pll_700 s) = true ∧ idle (pll_1G2 s) = true ∧ idle (pll_2G4 s) = true ∧
        idle (pll_5G6 s) = true) ∧
      idle (main (4 + 2 * n) s).2 = true := by
  refine ⟨idle_of_emits emits_pll_700 s, idle_of_emits emits_pll_1G2 s,
    idle_of_emits emits_pll_2G4 s, idle_of_emits emits_pll_5G6 s,
    ⟨(idle_iff _).2 (idle_of_emits emits_pll_700 s), (idle_iff _).2 (idle_of_emits emits_pll_1G2 s),
      (idle_iff _).2 (idle_of_emits emits_pll_2G4 s),
      (idle_iff _).2 (idle_of_emits emits_pll_5G6 s)⟩, ?_⟩
  have e : 4 + 2 * n = 3 + (1 + 2 * n) := by ring
  rw [e]
  exact (main_idle (1 + 2 * n) s).2

/-- C18: in the trace of each profile function, started with LATCH_ENABLE LOW,
LATCH_ENABLE rises seven times: first in `spi_open`, before any rise of CLOCK, then
six times, each after exactly 32 rises of CLOCK since the previous change of
LATCH_ENABLE; started with LATCH_ENABLE HIGH it rises six times, each after exactly 32
rises of CLOCK, and not in `spi_open`. -/
theorem C18_latch_rises (s : Mcu) :
    leRises (level Signal.CLK s) (level Signal.LE s) 0 (emitted spi_open s) =
        (if level Signal.LE s then [] else [0]) ∧
      leRises (level Signal.CLK s) (level Signal.LE s) 0 (emitted pll_700 s) =
        (if level Signal.LE s then List.replicate 6 32 else 0 :: List.replicate 6 32) ∧
      leRises (level Signal.CLK s) (level Signal.LE s) 0 (emitted pll_1G2 s) =
        (if level Signal.LE s then List.replicate 6 32 else 0 :: List.replicate 6 32) ∧
      leRises (level Signal.CLK s) (level Signal.LE s) 0 (emitted pll_2G4 s) =
        (if level Signal.LE s then List.replicate 6 32 else 0 :: List.replicate 6 32) ∧
      leRises (level Signal.CLK s) (level Signal.LE s) 0 (emitted pll_5G6 s) =
        (if level Signal.LE s then List.replicate 6 32 else 0 :: List.replicate 6 32) := by
  rw [emitted_eq emits_spi_open s, emitted_eq emits_pll_700 s, emitted_eq emits_pll_1G2 s,
    emitted_eq emits_pll_2G4 s, emitted_eq emits_pll_5G6 s]
  refine ⟨?_, leRises_profileTrace _ _ _ _ _ _ _ _, leRises_profileTrace _ _ _ _ _ _ _ _,
    leRises_profileTrace _ _ _ _ _ _ _ _, leRises_profileTrace _ _ _ _ _ _ _ _⟩
  cases level Signal.LE s <;> rfl

end Pllset
